import Mathlib

/-!
Shallow embedding of the library-management system (book.py, member.py,
attendance.py, library.py).  Python dicts are insertion-ordered association
lists, datetimes are integer seconds, and every mutating method is a pure
function returning its boolean result together with the updated state.
-/

namespace LibSys

/-- ASCII lowering of one character, matching Python str.lower on the
ASCII range used by this repository. -/
def lowerChar (c : Char) : Char :=
  if 'A' ≤ c ∧ c ≤ 'Z' then Char.ofNat (c.toNat + 32) else c

/-- Python query.lower(): characterwise lowering. -/
def pyLower (s : String) : String :=
  String.mk (s.data.map lowerChar)

/-- Python substring test `p in s` on character lists. -/
def isSubstr (p : List Char) : List Char → Bool
  | [] => p.isEmpty
  | c :: rest => p.isPrefixOf (c :: rest) || isSubstr p rest

/-- Python substring test `p in s` on strings. -/
def pySubstr (p s : String) : Bool := isSubstr p.data s.data

/-- Python dict assignment d[k] = v: overwrite the value at an existing key
in place (keeping its position), else append a new entry at the end. -/
def setKey [BEq κ] (k : κ) (v : α) : List (κ × α) → List (κ × α)
  | [] => [(k, v)]
  | (k1, v1) :: rest => if k1 == k then (k1, v) :: rest else (k1, v1) :: setKey k v rest

/-- Python `del d[k]`: drop the entry holding key k. -/
def delKey [BEq κ] (k : κ) : List (κ × α) → List (κ × α)
  | [] => []
  | (k1, v1) :: rest => if k1 == k then rest else (k1, v1) :: delKey k rest

/-- Python `k in d` on a dict viewed as an association list. -/
def hasKey [BEq κ] (k : κ) (l : List (κ × α)) : Bool :=
  l.any (fun p => p.1 == k)

/-- In-place mutation of the object a dict lookup returned: replace the
first element satisfying p, leave everything else untouched. -/
def replaceF (p : α → Bool) (x : α) : List α → List α
  | [] => []
  | y :: rest => if p y then x :: rest else y :: replaceF p x rest

/-- Book record (book.py).  borrowed_by is the dict member_id → borrow
timestamp. -/
structure Book where
  book_id : String
  title : String
  author : String
  isbn : String
  category : String
  total_copies : Nat
  available_copies : Nat
  borrowed_by : List (String × Int)
  deriving DecidableEq

/-- Book.__init__: available_copies starts equal to total_copies. -/
def mkBook (book_id title author isbn category : String) (copies : Nat) : Book :=
  { book_id, title, author, isbn, category,
    total_copies := copies, available_copies := copies, borrowed_by := [] }

/-- Book.is_available: available_copies > 0. -/
def Book.availableQ (b : Book) : Bool := decide (0 < b.available_copies)

/-- Book.borrow: if available, decrement available_copies and write
borrowed_by[member_id] = now (a dict write, so an existing entry for the
same member is overwritten, not duplicated). -/
def Book.borrow (b : Book) (member_id : String) (now : Int) : Bool × Book :=
  if b.availableQ then
    (true, { b with available_copies := b.available_copies - 1,
                    borrowed_by := setKey member_id now b.borrowed_by })
  else (false, b)

/-- Book.return_book: if member_id is a borrower, increment
available_copies and delete the borrowed_by entry. -/
def Book.giveBack (b : Book) (member_id : String) : Bool × Book :=
  if hasKey member_id b.borrowed_by then
    (true, { b with available_copies := b.available_copies + 1,
                    borrowed_by := delKey member_id b.borrowed_by })
  else (false, b)

/-- Member record (member.py). -/
structure Member where
  member_id : String
  name : String
  email : String
  phone : String
  membership_type : String
  join_date : Int
  borrowed_books : List String
  borrowing_history : List (String × Int × Int)
  max_books : Nat
  deriving DecidableEq

/-- Member.__init__: max_books is 5 for Premium membership, else 3. -/
def mkMember (member_id name email phone membership_type : String) (now : Int) : Member :=
  { member_id, name, email, phone, membership_type, join_date := now,
    borrowed_books := [], borrowing_history := [],
    max_books := if membership_type == "Premium" then 5 else 3 }

/-- Member.can_borrow: fewer borrowed books than max_books. -/
def Member.canBorrow (m : Member) : Bool :=
  decide (m.borrowed_books.length < m.max_books)

/-- Member.borrow_book: append book_id if can_borrow holds. -/
def Member.takeBook (m : Member) (book_id : String) : Bool × Member :=
  if m.canBorrow then
    (true, { m with borrowed_books := m.borrowed_books ++ [book_id] })
  else (false, m)

/-- Member.return_book: if book_id is held, remove its first occurrence
(Python list.remove) and append (book_id, now, now) to borrowing_history;
both history timestamps are taken at return time. -/
def Member.giveBack (m : Member) (book_id : String) (now : Int) : Bool × Member :=
  if m.borrowed_books.contains book_id then
    (true, { m with borrowed_books := m.borrowed_books.erase book_id,
                    borrowing_history := m.borrowing_history ++ [(book_id, now, now)] })
  else (false, m)

/-- Visitor categories (attendance.py VisitorType). -/
inductive VisitorType
  | member
  | visitor
  | staff
  deriving DecidableEq

/-- One attendance record (attendance.py AttendanceRecord). -/
structure AttendanceRecord where
  visitor_id : String
  name : String
  visitor_type : VisitorType
  entry_time : Int
  exit_time : Option Int
  purpose : String
  is_active : Bool
  deriving DecidableEq

/-- Per-day counters held in AttendanceTracker.daily_stats. -/
structure DayStats where
  total_visitors : Nat
  members : Nat
  visitors : Nat
  staff : Nat
  deriving DecidableEq

/-- AttendanceTracker state: record list plus date-keyed stats dict. -/
structure AttendanceTracker where
  attendance_records : List AttendanceRecord
  daily_stats : List (Int × DayStats)
  deriving DecidableEq

def emptyTracker : AttendanceTracker :=
  { attendance_records := [], daily_stats := [] }

/-- Date of a timestamp (entry_time.date() / date.today()). -/
def dateOf (t : Int) : Int := t / 86400

/-- AttendanceTracker.is_currently_present: some record of this visitor is
still active. -/
def AttendanceTracker.presentQ (s : AttendanceTracker) (visitor_id : String) : Bool :=
  s.attendance_records.any (fun r => r.visitor_id == visitor_id && r.is_active)

/-- Increment daily_stats[today][visitor_type.value + "s"].  The stats dict
only has keys total_visitors / members / visitors / staff, so the computed
key "staffs" is missing and a staff check-in raises KeyError (none). -/
def bumpTypeCount : VisitorType → DayStats → Option DayStats
  | .member, d => some { d with members := d.members + 1 }
  | .visitor, d => some { d with visitors := d.visitors + 1 }
  | .staff, _ => none

/-- AttendanceTracker.check_in: reject if already present; otherwise append
a fresh active record and bump the day counters.  Both mutations happen
before the per-type counter update, so the KeyError a staff check-in raises
(Except.error) leaves the record appended and total_visitors incremented. -/
def AttendanceTracker.checkIn (s : AttendanceTracker) (visitor_id name : String)
    (visitor_type : VisitorType) (purpose : String) (now : Int) :
    Except Unit Bool × AttendanceTracker :=
  if s.presentQ visitor_id then (Except.ok false, s)
  else
    let r : AttendanceRecord :=
      { visitor_id, name, visitor_type, entry_time := now, exit_time := none,
        purpose, is_active := true }
    let recs := s.attendance_records ++ [r]
    let today := dateOf now
    let base := (List.lookup today s.daily_stats).getD
      { total_visitors := 0, members := 0, visitors := 0, staff := 0 }
    let base1 := { base with total_visitors := base.total_visitors + 1 }
    match bumpTypeCount visitor_type base1 with
    | some st =>
        (Except.ok true,
         { attendance_records := recs, daily_stats := setKey today st s.daily_stats })
    | none =>
        (Except.error (),
         { attendance_records := recs, daily_stats := setKey today base1 s.daily_stats })

/-- Reversed scan of AttendanceTracker.check_out: recursing into the tail
first means later (more recent) records are tried before earlier ones.
Returns the updated list, or none when no active record matches. -/
def checkOutList (visitor_id : String) (now : Int) :
    List AttendanceRecord → Option (List AttendanceRecord)
  | [] => none
  | r :: rest =>
    match checkOutList visitor_id now rest with
    | some rest1 => some (r :: rest1)
    | none =>
      if r.visitor_id == visitor_id && r.is_active then
        some ({ r with exit_time := some now, is_active := false } :: rest)
      else none

/-- AttendanceTracker.check_out. -/
def AttendanceTracker.checkOut (s : AttendanceTracker) (visitor_id : String) (now : Int) :
    Bool × AttendanceTracker :=
  match checkOutList visitor_id now s.attendance_records with
  | some l => (true, { s with attendance_records := l })
  | none => (false, s)

/-- AttendanceTracker.get_current_visitors: all active records. -/
def AttendanceTracker.currentVisitors (s : AttendanceTracker) : List AttendanceRecord :=
  s.attendance_records.filter (fun r => r.is_active)

/-- One audit-log entry (Library._log_transaction). -/
structure Transaction where
  timestamp : Int
  action : String
  description : String
  deriving DecidableEq

/-- Library aggregate state (library.py).  The books and members dicts are
insertion-ordered lists keyed by their id fields. -/
structure Library where
  books : List Book
  members : List Member
  transactions : List Transaction
  attendance_tracker : AttendanceTracker
  deriving DecidableEq

def emptyLibrary : Library :=
  { books := [], members := [], transactions := [], attendance_tracker := emptyTracker }

/-- Library.get_book: dict lookup by book_id. -/
def Library.getBook (s : Library) (book_id : String) : Option Book :=
  s.books.find? (fun b => b.book_id == book_id)

/-- Library.get_member: dict lookup by member_id. -/
def Library.getMember (s : Library) (member_id : String) : Option Member :=
  s.members.find? (fun m => m.member_id == member_id)

/-- Python `book_id in self.books`. -/
def Library.hasBook (s : Library) (book_id : String) : Bool :=
  s.books.any (fun b => b.book_id == book_id)

/-- Python `member_id in self.members`. -/
def Library.hasMember (s : Library) (member_id : String) : Bool :=
  s.members.any (fun m => m.member_id == member_id)

/-- Library._log_transaction. -/
def Library.log (s : Library) (action description : String) (now : Int) : Library :=
  { s with transactions := s.transactions ++ [{ timestamp := now, action, description }] }

/-- In-place mutation of the Book object get_book returned. -/
def Library.setBook (s : Library) (book_id : String) (b : Book) : Library :=
  { s with books := replaceF (fun b0 => b0.book_id == book_id) b s.books }

/-- In-place mutation of the Member object get_member returned. -/
def Library.setMember (s : Library) (member_id : String) (m : Member) : Library :=
  { s with members := replaceF (fun m0 => m0.member_id == member_id) m s.members }

/-- Library.add_book. -/
def Library.addBook (s : Library) (book_id title author isbn category : String)
    (copies : Nat) (now : Int) : Bool × Library :=
  if s.hasBook book_id then (false, s)
  else
    let s1 := { s with books := s.books ++ [mkBook book_id title author isbn category copies] }
    (true, s1.log "ADD_BOOK" ("Added book: " ++ title) now)

/-- Library.remove_book: rejected when absent or when copies are on loan. -/
def Library.removeBook (s : Library) (book_id : String) (now : Int) : Bool × Library :=
  match s.getBook book_id with
  | none => (false, s)
  | some book =>
    if book.available_copies < book.total_copies then (false, s)
    else
      let s1 := { s with books := s.books.eraseP (fun b => b.book_id == book_id) }
      (true, s1.log "REMOVE_BOOK" ("Removed book: " ++ book.title) now)

/-- Library.search_books: the query is lowered once; title, author and
category are compared lowered, the isbn field is compared as stored. -/
def Library.searchBooks (s : Library) (query : String) (search_type : String) : List Book :=
  let q := pyLower query
  s.books.filter (fun b =>
    (search_type == "title" && pySubstr q (pyLower b.title)) ||
    (search_type == "author" && pySubstr q (pyLower b.author)) ||
    (search_type == "category" && pySubstr q (pyLower b.category)) ||
    (search_type == "isbn" && pySubstr q b.isbn))

/-- Library.add_member. -/
def Library.addMember (s : Library) (member_id name email phone membership_type : String)
    (now : Int) : Bool × Library :=
  if s.hasMember member_id then (false, s)
  else
    let s1 := { s with members := s.members ++ [mkMember member_id name email phone membership_type now] }
    (true, s1.log "ADD_MEMBER" ("Added member: " ++ name) now)

/-- Library.remove_member: rejected when absent or still holding books. -/
def Library.removeMember (s : Library) (member_id : String) (now : Int) : Bool × Library :=
  match s.getMember member_id with
  | none => (false, s)
  | some member =>
    if member.borrowed_books ≠ [] then (false, s)
    else
      let s1 := { s with members := s.members.eraseP (fun m => m.member_id == member_id) }
      (true, s1.log "REMOVE_MEMBER" ("Removed member: " ++ member.name) now)

/-- Library.borrow_book: guard on existence, can_borrow and availability,
then run Book.borrow and (non-short-circuited, since the first step
succeeds) Member.borrow_book, each mutation landing in the state. -/
def Library.borrowBook (s : Library) (member_id book_id : String) (now : Int) : Bool × Library :=
  match s.getMember member_id, s.getBook book_id with
  | some member, some book =>
    if !member.canBorrow then (false, s)
    else if !book.availableQ then (false, s)
    else
      let r1 := book.borrow member_id now
      let s1 := s.setBook book_id r1.2
      if r1.1 then
        let r2 := member.takeBook book_id
        let s2 := s1.setMember member_id r2.2
        if r2.1 then
          (true, s2.log "BORROW" ("Member " ++ member.name ++ " borrowed " ++ book.title) now)
        else (false, s2)
      else (false, s1)
  | _, _ => (false, s)

/-- Library.return_book: guard on existence and membership of book_id in
borrowed_books, then Book.return_book and — only if that succeeded, the
Python `and` short-circuits — Member.return_book. -/
def Library.returnBook (s : Library) (member_id book_id : String) (now : Int) : Bool × Library :=
  match s.getMember member_id, s.getBook book_id with
  | some member, some book =>
    if !(member.borrowed_books.contains book_id) then (false, s)
    else
      let r1 := book.giveBack member_id
      let s1 := s.setBook book_id r1.2
      if r1.1 then
        let r2 := member.giveBack book_id now
        let s2 := s1.setMember member_id r2.2
        if r2.1 then
          (true, s2.log "RETURN" ("Member " ++ member.name ++ " returned " ++ book.title) now)
        else (false, s2)
      else (false, s1)
  | _, _ => (false, s)

/-- One emitted row of Library.get_overdue_books. -/
structure OverdueEntry where
  book : Book
  member : Option Member
  borrow_date : Int
  days_overdue : Nat
  deriving DecidableEq

/-- The dict literal appended by get_overdue_books for one borrowed_by
entry: the book, the looked-up member, the borrow date and the age of the
loan in whole days. -/
def overdueRow (s : Library) (now : Int) (b : Book) (p : String × Int) : OverdueEntry :=
  { book := b, member := s.getMember p.1, borrow_date := p.2,
    days_overdue := (now - p.2).toNat / 86400 }

/-- Library.get_overdue_books: cutoff = now − days·86400 seconds; every
borrowed_by entry strictly older than the cutoff yields one row, with
days_overdue the floor of the age in days. -/
def Library.overdueBooks (s : Library) (days : Int) (now : Int) : List OverdueEntry :=
  let cutoff := now - days * 86400
  s.books.foldr (fun b acc =>
    ((b.borrowed_by.filter (fun p => decide (p.2 < cutoff))).map (overdueRow s now b)) ++ acc) []

/-- The six mutating facade operations of the claims. -/
inductive Op
  | addBook (now : Int) (book_id title author isbn category : String) (copies : Nat)
  | removeBook (now : Int) (book_id : String)
  | addMember (now : Int) (member_id name email phone membership_type : String)
  | removeMember (now : Int) (member_id : String)
  | borrowBook (now : Int) (member_id book_id : String)
  | returnBook (now : Int) (member_id book_id : String)

/-- Run one facade operation, returning its boolean result and the state. -/
def Library.applyOp (s : Library) : Op → Bool × Library
  | .addBook now bid t a i c copies => s.addBook bid t a i c copies now
  | .removeBook now bid => s.removeBook bid now
  | .addMember now mid n e p mt => s.addMember mid n e p mt now
  | .removeMember now mid => s.removeMember mid now
  | .borrowBook now mid bid => s.borrowBook mid bid now
  | .returnBook now mid bid => s.returnBook mid bid now

def Library.step (s : Library) (op : Op) : Library := (s.applyOp op).2

def runOps (ops : List Op) : Library := ops.foldl Library.step emptyLibrary

/-- States reachable from the empty library by facade operations. -/
def ReachableLib (s : Library) : Prop := ∃ ops, runOps ops = s

/-- Attendance operations (check-in of any visitor type, check-out). -/
inductive TOp
  | checkIn (now : Int) (visitor_id name : String) (visitor_type : VisitorType) (purpose : String)
  | checkOut (now : Int) (visitor_id : String)

def AttendanceTracker.stepT (s : AttendanceTracker) : TOp → AttendanceTracker
  | .checkIn now vid n vt p => (s.checkIn vid n vt p now).2
  | .checkOut now vid => (s.checkOut vid now).2

def runTOps (ops : List TOp) : AttendanceTracker :=
  ops.foldl AttendanceTracker.stepT emptyTracker

/-- Tracker states reachable from the empty tracker. -/
def ReachableTracker (s : AttendanceTracker) : Prop := ∃ ops, runTOps ops = s

/-- Specification-side description of get_overdue_books, written from the
spec's words for the refinement comparison: one row for every
(book, borrower, borrow_date) triple with now − borrow_date > days. -/
def overdueSpec (s : Library) (days now : Int) : List OverdueEntry :=
  s.books.foldr (fun b acc =>
    (b.borrowed_by.foldr (fun p acc2 =>
      if now - p.2 > days * 86400 then overdueRow s now b p :: acc2
      else acc2) []) ++ acc) []

/-- Specification-side description of search_books for the amended claim:
the lowered query is substring-matched against the lowered title, author or
category, or against the isbn exactly as stored. -/
def searchSpec (s : Library) (query search_type : String) : List Book :=
  s.books.filter (fun b =>
    if search_type == "title" then pySubstr (pyLower query) (pyLower b.title)
    else if search_type == "author" then pySubstr (pyLower query) (pyLower b.author)
    else if search_type == "category" then pySubstr (pyLower query) (pyLower b.category)
    else if search_type == "isbn" then pySubstr (pyLower query) b.isbn
    else false)

/-- Number of active attendance records carrying a given visitor_id. -/
def countActive (s : AttendanceTracker) (visitor_id : String) : Nat :=
  (s.attendance_records.filter (fun r => r.visitor_id == visitor_id && r.is_active)).length

/-- Per-member part of the spec §3 Member invariant. -/
def MemberInv (m : Member) : Prop :=
  m.max_books = (if m.membership_type == "Premium" then 5 else 3) ∧
  m.borrowed_books.length ≤ m.max_books

/-- All members of the library satisfy the member invariant. -/
def LibInv (s : Library) : Prop := ∀ m ∈ s.members, MemberInv m

/-- Tracker invariant of spec §3: at most one active record per visitor. -/
def TrackerInv (s : AttendanceTracker) : Prop := ∀ vid, countActive s vid ≤ 1

/-- Fixture: a two-copy book and a Regular member who borrows it once. -/
def dblBorrowPrefix : List Op :=
  [Op.addBook 0 "B1" "T" "A" "I" "G" 2,
   Op.addMember 0 "M1" "N" "E" "P" "Regular",
   Op.borrowBook 1 "M1" "B1"]

/-- Fixture: the same scenario with a second borrow of the held book. -/
def dblBorrowOps : List Op := dblBorrowPrefix ++ [Op.borrowBook 2 "M1" "B1"]

/-- Fixture: member M1 holds B1 then B2, with a second copy of B1 free. -/
def roundTripOps : List Op :=
  [Op.addBook 0 "B1" "T" "A" "I" "G" 2,
   Op.addBook 0 "B2" "T2" "A2" "I2" "G" 1,
   Op.addMember 0 "M1" "N" "E" "P" "Regular",
   Op.borrowBook 1 "M1" "B1",
   Op.borrowBook 2 "M1" "B2"]

/-- Fixture: B1 borrowed at day 0 and B2 at day 5; queried at day 15 the
loans are 15 and 10 days old. -/
def overdueOps : List Op :=
  [Op.addBook 0 "B1" "T" "A" "I" "G" 1,
   Op.addBook 0 "B2" "T2" "A2" "I2" "G" 1,
   Op.addMember 0 "M1" "N" "E" "P" "Regular",
   Op.borrowBook 0 "M1" "B1",
   Op.borrowBook (5 * 86400) "M1" "B2"]

/-- Fixture: a catalog holding one book whose isbn is the upper-case "ABC". -/
def isbnLib : Library := (emptyLibrary.addBook "B1" "T" "A" "ABC" "G" 1 0).2

/-- Fixture: a Regular member already holding three distinct books. -/
def regularFullOps : List Op :=
  [Op.addBook 0 "B1" "T" "A" "I" "G" 1,
   Op.addBook 0 "B2" "T2" "A2" "I2" "G" 1,
   Op.addBook 0 "B3" "T3" "A3" "I3" "G" 1,
   Op.addBook 0 "B4" "T4" "A4" "I4" "G" 1,
   Op.addMember 0 "M1" "N" "E" "P" "Regular",
   Op.borrowBook 1 "M1" "B1",
   Op.borrowBook 2 "M1" "B2",
   Op.borrowBook 3 "M1" "B3"]

/-- Fixture: a member currently holding book B1. -/
def mW : Member := { mkMember "M1" "N" "E" "P" "Regular" 0 with borrowed_books := ["B1"] }

/-- Fixture: visitor V1 checked in once. -/
def v1Ops : List TOp := [TOp.checkIn 0 "V1" "N" VisitorType.visitor ""]

/-! Theorems. -/

theorem foldr_if_eq_filter_map {P : α → Prop} [DecidablePred P] (f : α → β) (l : List α) :
    l.foldr (fun x acc => if P x then f x :: acc else acc) []
      = (l.filter (fun x => decide (P x))).map f := by
  induction l with
  | nil => rfl
  | cons x xs ih =>
    by_cases h : P x <;> simp [h, ih, List.filter_cons]

/-- C1: the claimed invariant available_copies + |borrowed_by| = total_copies
fails on a reachable state: after adding a two-copy book, one Regular member
and two borrow_book calls by that member for that book, the book shows
available_copies + |borrowed_by| = 1 while total_copies = 2 (the second
borrow decrements available_copies but merely overwrites the existing
borrowed_by dict entry). -/
theorem C1_invariant_violation :
    ((runOps dblBorrowOps).getBook "B1").map
      (fun b => (b.available_copies + b.borrowed_by.length, b.total_copies)) = some (1, 2)
    ∧ (1 : Nat) ≠ 2 := by
  exact ⟨by decide, by decide⟩

/-- C2: a second borrow_book call for a book the member already holds is
accepted, not rejected: with a second copy available it returns true and
leaves a duplicate entry in borrowed_books. -/
theorem C2_double_borrow_accepted :
    ((runOps dblBorrowPrefix).borrowBook "M1" "B1" 2).1 = true ∧
    (((runOps dblBorrowPrefix).borrowBook "M1" "B1" 2).2.getMember "M1").map
      (fun m => m.borrowed_books) = some ["B1", "B1"] := by
  exact ⟨by decide, by decide⟩

/-- C6: get_overdue_books emits exactly one row per (book, borrower,
borrow_date) triple with now − borrow_date > days (in days of 86400
seconds), carrying the floor age in days; concretely, at day 15 a loan from
day 0 appears in overdueBooks(14) with days_overdue = 15 while a loan from
day 5 (10 days old) is absent. -/
theorem C6_overdue_rows :
    (∀ (s : Library) (days now : Int), s.overdueBooks days now = overdueSpec s days now) ∧
    ((runOps overdueOps).overdueBooks 14 (15 * 86400)).map
      (fun e => (e.book.book_id, e.days_overdue)) = [("B1", 15)] := by
  constructor
  · intro s days now
    unfold Library.overdueBooks overdueSpec
    simp only []
    generalize s.books = l
    induction l with
    | nil => rfl
    | cons b bs ih =>
      simp only [List.foldr_cons, ih]
      congr 1
      rw [foldr_if_eq_filter_map]
      congr 1
      apply List.filter_congr
      intro p _
      simp only [decide_eq_decide]
      omega
  · decide

/-- C7 counterexample: the catalog holds one book with isbn "ABC"; the
query "ABC" is literally a substring of that stored isbn, yet
search_books("ABC", "isbn") returns no match, because the code lowercases
the query before the comparison. -/
theorem C7_isbn_case_counterexample :
    isbnLib.searchBooks "ABC" "isbn" = [] ∧
    pySubstr "ABC" "ABC" = true ∧
    (isbnLib.getBook "B1").map Book.isbn = some "ABC" := by
  exact ⟨by decide, by decide, by decide⟩

/-- C7 amended: search_books returns, in catalog insertion order, exactly
the books whose chosen field matches the lowered query: for title, author
and category the lowered query must be a substring of the lowered field,
and for isbn the lowered query must be a substring of the isbn exactly as
stored (the stored isbn is not lowered, the query always is). -/
theorem C7_search_characterization :
    ∀ (s : Library) (query search_type : String),
      s.searchBooks query search_type = searchSpec s query search_type := by
  intro s q f
  unfold Library.searchBooks searchSpec
  simp only []
  apply List.filter_congr
  intro b _
  cases h1 : f == "title" with
  | true =>
    have hf : f = "title" := eq_of_beq h1
    subst hf
    simp
  | false =>
    cases h2 : f == "author" with
    | true =>
      have hf : f = "author" := eq_of_beq h2
      subst hf
      simp
    | false =>
      cases h3 : f == "category" with
      | true =>
        have hf : f = "category" := eq_of_beq h3
        subst hf
        simp
      | false =>
        cases h4 : f == "isbn" with
        | true =>
          have hf : f = "isbn" := eq_of_beq h4
          subst hf
          simp
        | false =>
          simp [h1, h2, h3, h4]

/-- C9: Member.return_book succeeds exactly when book_id is currently held,
and every successful return appends exactly the one history tuple
(book_id, now, now): both recorded timestamps are the return time,
independent of when the book was borrowed. -/
theorem C9_history_timestamps (m : Member) (book_id : String) (now : Int) :
    ((m.giveBack book_id now).1 = true ↔ book_id ∈ m.borrowed_books) ∧
    ((m.giveBack book_id now).1 = true →
      (m.giveBack book_id now).2.borrowing_history
        = m.borrowing_history ++ [(book_id, now, now)]) := by
  unfold Member.giveBack
  cases h : m.borrowed_books.contains book_id <;>
    simp_all [List.elem_iff]

/-- C9 witness: the theorem applied to a member currently holding B1. -/
theorem C9_witness :
    (((mW.giveBack "B1" 7).1 = true ↔ "B1" ∈ mW.borrowed_books) ∧
     ((mW.giveBack "B1" 7).1 = true →
       (mW.giveBack "B1" 7).2.borrowing_history
         = mW.borrowing_history ++ [("B1", 7, 7)])) :=
  C9_history_timestamps mW "B1" 7

/-- C10: search_books with a field outside title/author/category/isbn
matches no branch of the comparison chain and returns the empty list for
every catalog and query. -/
theorem C10_unknown_field_empty (s : Library) (query search_type : String)
    (h1 : search_type ≠ "title") (h2 : search_type ≠ "author")
    (h3 : search_type ≠ "category") (h4 : search_type ≠ "isbn") :
    s.searchBooks query search_type = [] := by
  unfold Library.searchBooks
  simp only []
  have e1 : (search_type == "title") = false := by simpa using h1
  have e2 : (search_type == "author") = false := by simpa using h2
  have e3 : (search_type == "category") = false := by simpa using h3
  have e4 : (search_type == "isbn") = false := by simpa using h4
  simp [e1, e2, e3, e4]

theorem replaceF_of_find?_self {p : α → Bool} :
    ∀ {l : List α} {x : α}, l.find? p = some x → replaceF p x l = l := by
  intro l
  induction l with
  | nil => intro x h; simp at h
  | cons y ys ih =>
    intro x h
    cases hy : p y
    · rw [List.find?_cons_of_neg _ (by simp [hy])] at h
      simp [replaceF, hy, ih h]
    · rw [List.find?_cons_of_pos _ hy] at h
      cases h
      simp [replaceF, hy]

theorem find?_replaceF {p : α → Bool} (y : α) (hy : p y = true) :
    ∀ {l : List α} {x : α}, l.find? p = some x → (replaceF p y l).find? p = some y := by
  intro l
  induction l with
  | nil => intro x h; simp at h
  | cons z zs ih =>
    intro x h
    cases hz : p z
    · rw [List.find?_cons_of_neg _ (by simp [hz])] at h
      have hstep : replaceF p y (z :: zs) = z :: replaceF p y zs := by simp [replaceF, hz]
      rw [hstep, List.find?_cons_of_neg _ (by simp [hz])]
      exact ih h
    · have hstep : replaceF p y (z :: zs) = y :: zs := by simp [replaceF, hz]
      rw [hstep, List.find?_cons_of_pos _ hy]

theorem mem_replaceF {p : α → Bool} {x y : α} :
    ∀ {l : List α}, y ∈ replaceF p x l → y = x ∨ y ∈ l := by
  intro l
  induction l with
  | nil => intro h; simp [replaceF] at h
  | cons z zs ih =>
    intro h
    cases hz : p z
    · have hstep : replaceF p x (z :: zs) = z :: replaceF p x zs := by simp [replaceF, hz]
      rw [hstep] at h
      rcases List.mem_cons.mp h with rfl | h2
      · exact Or.inr (List.mem_cons_self _ _)
      · rcases ih h2 with h3 | h3
        · exact Or.inl h3
        · exact Or.inr (List.mem_cons_of_mem _ h3)
    · have hstep : replaceF p x (z :: zs) = x :: zs := by simp [replaceF, hz]
      rw [hstep] at h
      rcases List.mem_cons.mp h with rfl | h2
      · exact Or.inl rfl
      · exact Or.inr (List.mem_cons_of_mem _ h2)

theorem hasKey_setKey_self [BEq κ] [LawfulBEq κ] (k : κ) (v : α) :
    ∀ l : List (κ × α), hasKey k (setKey k v l) = true := by
  intro l
  induction l with
  | nil => simp [setKey, hasKey]
  | cons hd rest ih =>
    obtain ⟨k1, v1⟩ := hd
    cases hk : k1 == k
    · simp [setKey, hasKey, hk]
      simpa [hasKey] using ih
    · simp [setKey, hasKey, hk]

/-- C3: each of the six mutating facade operations is a total function, and
whenever it reports false the whole aggregate state (books, members,
transaction log, attendance) is returned exactly as it was: every rejection
happens before any mutation, and the one late rejection inside return_book
(no borrowed_by entry for the member) writes back the unmodified book. -/
theorem C3_rejected_no_mutation (s : Library) (op : Op)
    (h : (s.applyOp op).1 = false) : (s.applyOp op).2 = s := by
  cases op with
  | addBook now bid t a i c copies =>
    simp only [Library.applyOp] at h ⊢
    unfold Library.addBook at h ⊢
    cases hb : s.hasBook bid
    · simp [hb] at h
    · simp [hb]
  | removeBook now bid =>
    simp only [Library.applyOp] at h ⊢
    unfold Library.removeBook at h ⊢
    cases hg : s.getBook bid with
    | none => simp [hg]
    | some book =>
      by_cases hc : book.available_copies < book.total_copies
      · simp [hg, hc]
      · simp [hg, hc] at h
  | addMember now mid n e p mt =>
    simp only [Library.applyOp] at h ⊢
    unfold Library.addMember at h ⊢
    cases hb : s.hasMember mid
    · simp [hb] at h
    · simp [hb]
  | removeMember now mid =>
    simp only [Library.applyOp] at h ⊢
    unfold Library.removeMember at h ⊢
    cases hg : s.getMember mid with
    | none => simp [hg]
    | some member =>
      by_cases hc : member.borrowed_books ≠ []
      · simp [hg, hc]
      · simp [hg, hc] at h
  | borrowBook now mid bid =>
    simp only [Library.applyOp] at h ⊢
    unfold Library.borrowBook at h ⊢
    cases hm : s.getMember mid with
    | none => cases hb : s.getBook bid <;> simp [hm, hb]
    | some member =>
      cases hb : s.getBook bid with
      | none => simp [hm, hb]
      | some book =>
        by_cases h1 : member.canBorrow
        · by_cases h2 : book.availableQ
          · simp [hm, hb, h1, h2, Book.borrow, Member.takeBook] at h
          · simp [hm, hb, h1, h2]
        · simp [hm, hb, h1]
  | returnBook now mid bid =>
    simp only [Library.applyOp] at h ⊢
    unfold Library.returnBook at h ⊢
    cases hm : s.getMember mid with
    | none => cases hb : s.getBook bid <;> simp [hm, hb]
    | some member =>
      cases hb : s.getBook bid with
      | none => simp [hm, hb]
      | some book =>
        by_cases h1 : bid ∈ member.borrowed_books
        · cases hk : hasKey mid book.borrowed_by
          · have hrep : replaceF (fun b0 => b0.book_id == bid) book s.books = s.books :=
              replaceF_of_find?_self hb
            simp [hm, hb, h1, Book.giveBack, hk, Library.setBook, hrep]
          · simp [hm, hb, h1, Book.giveBack, hk, Member.giveBack] at h
        · simp [hm, hb, h1]

/-- C4 counterexample: starting from the reachable state where Regular
member M1 holds B1 then B2 (borrowed_books = [B1, B2]) and a second copy of
B1 is free, borrowBook(M1, B1) succeeds and the immediate returnBook(M1, B1)
succeeds, but list.remove drops the first occurrence of B1, leaving
borrowed_books = [B2, B1]: the member's borrowed list is not restored to its
pre-borrow value. -/
theorem C4_list_counterexample :
    ((runOps roundTripOps).borrowBook "M1" "B1" 3).1 = true ∧
    (((runOps roundTripOps).borrowBook "M1" "B1" 3).2.returnBook "M1" "B1" 4).1 = true ∧
    ((runOps roundTripOps).getMember "M1").map (fun m => m.borrowed_books)
      = some ["B1", "B2"] ∧
    ((((runOps roundTripOps).borrowBook "M1" "B1" 3).2.returnBook "M1" "B1" 4).2.getMember
        "M1").map (fun m => m.borrowed_books) = some ["B2", "B1"] ∧
    (some ["B2", "B1"] : Option (List String)) ≠ some ["B1", "B2"] := by
  exact ⟨by decide, by decide, by decide, by decide, by decide⟩

/-- C4 amended: whenever borrowBook succeeds, the immediately following
returnBook succeeds, restores the book's available_copies to its pre-borrow
value, and restores the member's borrowed_books as a multiset (a permutation
of the pre-borrow list); when the member did not already hold the book, the
borrowed_books list itself is restored exactly. -/
theorem C4_roundtrip_amended (s : Library) (member_id book_id : String) (now now2 : Int)
    (h : (s.borrowBook member_id book_id now).1 = true) :
    ((s.borrowBook member_id book_id now).2.returnBook member_id book_id now2).1 = true ∧
    ((((s.borrowBook member_id book_id now).2.returnBook member_id book_id now2).2.getBook
        book_id).map (fun b => b.available_copies)
      = (s.getBook book_id).map (fun b => b.available_copies)) ∧
    (∀ m m2 : Member, s.getMember member_id = some m →
      (((s.borrowBook member_id book_id now).2.returnBook member_id book_id
          now2).2.getMember member_id) = some m2 →
      List.Perm m2.borrowed_books m.borrowed_books ∧
      (book_id ∉ m.borrowed_books → m2.borrowed_books = m.borrowed_books)) := by
  cases hm : s.getMember member_id with
  | none => unfold Library.borrowBook at h; simp [hm] at h
  | some member =>
  cases hb : s.getBook book_id with
  | none => unfold Library.borrowBook at h; simp [hm, hb] at h
  | some book =>
  by_cases h1 : member.canBorrow
  case neg => unfold Library.borrowBook at h; simp [hm, hb, h1] at h
  by_cases h2 : book.availableQ
  case neg => unfold Library.borrowBook at h; simp [hm, hb, h1, h2] at h
  have hb1 : s.books.find? (fun b => b.book_id == book_id) = some book := hb
  have hm1 : s.members.find? (fun m => m.member_id == member_id) = some member := hm
  have havail : 0 < book.available_copies := of_decide_eq_true h2
  have hs2 : (s.borrowBook member_id book_id now).2 =
      ((s.setBook book_id
          { book with available_copies := book.available_copies - 1,
                      borrowed_by := setKey member_id now book.borrowed_by }).setMember
        member_id
        { member with borrowed_books := member.borrowed_books ++ [book_id] }).log
        "BORROW" ("Member " ++ member.name ++ " borrowed " ++ book.title) now := by
    unfold Library.borrowBook
    simp [hm, hb, h1, h2, Book.borrow, Member.takeBook]
  have hgb2 : ((s.borrowBook member_id book_id now).2).getBook book_id =
      some { book with available_copies := book.available_copies - 1,
                       borrowed_by := setKey member_id now book.borrowed_by } := by
    rw [hs2]
    show (replaceF (fun b0 => b0.book_id == book_id) _ s.books).find?
        (fun b0 => b0.book_id == book_id) = _
    refine find?_replaceF _ ?_ hb1
    simpa using List.find?_some hb1
  have hgm2 : ((s.borrowBook member_id book_id now).2).getMember member_id =
      some { member with borrowed_books := member.borrowed_books ++ [book_id] } := by
    rw [hs2]
    show (replaceF (fun m0 => m0.member_id == member_id) _ s.members).find?
        (fun m0 => m0.member_id == member_id) = _
    refine find?_replaceF _ ?_ hm1
    simpa using List.find?_some hm1
  have hkk : hasKey member_id (setKey member_id now book.borrowed_by) = true :=
    hasKey_setKey_self member_id now book.borrowed_by
  have hret : (s.borrowBook member_id book_id now).2.returnBook member_id book_id now2 =
      (true,
        (((s.borrowBook member_id book_id now).2.setBook book_id
            { book with available_copies := book.available_copies - 1 + 1,
                        borrowed_by := delKey member_id
                          (setKey member_id now book.borrowed_by) }).setMember member_id
          { member with
              borrowed_books := (member.borrowed_books ++ [book_id]).erase book_id,
              borrowing_history := member.borrowing_history ++ [(book_id, now2, now2)] }).log
          "RETURN" ("Member " ++ member.name ++ " returned " ++ book.title) now2) := by
    unfold Library.returnBook
    rw [hgm2, hgb2]
    simp [Book.giveBack, hkk, Member.giveBack]
  refine ⟨by rw [hret], ?_, ?_⟩
  · rw [hret]
    have : ((((s.borrowBook member_id book_id now).2.setBook book_id
        { book with available_copies := book.available_copies - 1 + 1,
                    borrowed_by := delKey member_id
                      (setKey member_id now book.borrowed_by) }).setMember member_id
        { member with
            borrowed_books := (member.borrowed_books ++ [book_id]).erase book_id,
            borrowing_history := member.borrowing_history ++ [(book_id, now2, now2)] }).log
        "RETURN" ("Member " ++ member.name ++ " returned " ++ book.title) now2).getBook book_id =
        some { book with available_copies := book.available_copies - 1 + 1,
                         borrowed_by := delKey member_id
                           (setKey member_id now book.borrowed_by) } := by
      show (replaceF (fun b0 => b0.book_id == book_id) _
          ((s.borrowBook member_id book_id now).2).books).find?
          (fun b0 => b0.book_id == book_id) = _
      refine find?_replaceF _ ?_ hgb2
      simpa using List.find?_some hb1
    rw [this]
    show some (book.available_copies - 1 + 1) = some book.available_copies
    exact congrArg some (by omega)
  · intro m m2 hm0 hm20
    have hmm : m = member := (Option.some.inj hm0).symm
    rw [hret] at hm20
    have hm2v : (((((s.borrowBook member_id book_id now).2.setBook book_id
        { book with available_copies := book.available_copies - 1 + 1,
                    borrowed_by := delKey member_id
                      (setKey member_id now book.borrowed_by) }).setMember member_id
        { member with
            borrowed_books := (member.borrowed_books ++ [book_id]).erase book_id,
            borrowing_history := member.borrowing_history ++ [(book_id, now2, now2)] }).log
        "RETURN" ("Member " ++ member.name ++ " returned " ++ book.title) now2)).getMember
        member_id = some { member with
            borrowed_books := (member.borrowed_books ++ [book_id]).erase book_id,
            borrowing_history := member.borrowing_history ++ [(book_id, now2, now2)] } := by
      show (replaceF (fun m0 => m0.member_id == member_id) _
          (((s.borrowBook member_id book_id now).2.setBook book_id
            { book with available_copies := book.available_copies - 1 + 1,
                        borrowed_by := delKey member_id
                          (setKey member_id now book.borrowed_by) })).members).find?
          (fun m0 => m0.member_id == member_id) = _
      refine find?_replaceF _ ?_ hgm2
      simpa using List.find?_some hm1
    rw [hm2v] at hm20
    have hm2e : m2 = { member with
        borrowed_books := (member.borrowed_books ++ [book_id]).erase book_id,
        borrowing_history := member.borrowing_history ++ [(book_id, now2, now2)] } :=
      (Option.some.inj hm20).symm
    subst hmm
    constructor
    · rw [hm2e]
      show List.Perm ((m.borrowed_books ++ [book_id]).erase book_id) m.borrowed_books
      by_cases hmem : book_id ∈ m.borrowed_books
      · rw [List.erase_append_left _ hmem]
        exact (List.perm_append_singleton _ _).trans (List.perm_cons_erase hmem).symm
      · rw [List.erase_append_right _ hmem, List.erase_cons_head]
        simp
    · intro hnot
      rw [hm2e]
      show (m.borrowed_books ++ [book_id]).erase book_id = m.borrowed_books
      rw [List.erase_append_right _ hnot, List.erase_cons_head]
      simp

/-- C4 witness: the amended round-trip theorem applied to the concrete
reachable state of the counterexample fixture. -/
theorem C4_witness :
    ((runOps roundTripOps).borrowBook "M1" "B1" 3).1 = true ∧
    ((((runOps roundTripOps).borrowBook "M1" "B1" 3).2.returnBook "M1" "B1" 4).1 = true ∧
     (((((runOps roundTripOps).borrowBook "M1" "B1" 3).2.returnBook "M1" "B1" 4).2.getBook
         "B1").map (fun b => b.available_copies)
       = ((runOps roundTripOps).getBook "B1").map (fun b => b.available_copies)) ∧
     (∀ m m2 : Member, (runOps roundTripOps).getMember "M1" = some m →
       ((((runOps roundTripOps).borrowBook "M1" "B1" 3).2.returnBook "M1" "B1"
           4).2.getMember "M1") = some m2 →
       List.Perm m2.borrowed_books m.borrowed_books ∧
       ("B1" ∉ m.borrowed_books → m2.borrowed_books = m.borrowed_books))) :=
  ⟨by decide, C4_roundtrip_amended (runOps roundTripOps) "M1" "B1" 3 4 (by decide)⟩

theorem memberInv_mkMember (member_id name email phone mt : String) (now : Int) :
    MemberInv (mkMember member_id name email phone mt now) := by
  refine ⟨rfl, ?_⟩
  show ([] : List String).length ≤ (if mt == "Premium" then 5 else 3)
  split <;> simp

theorem libInv_step (s : Library) (op : Op) (h : LibInv s) : LibInv (s.step op) := by
  cases op with
  | addBook now bid t a i c copies =>
    simp only [Library.step, Library.applyOp]
    by_cases hbk : s.hasBook bid = true
    · have hres : s.addBook bid t a i c copies now = (false, s) := by
        unfold Library.addBook; simp [hbk]
      rw [hres]; exact h
    · have hres : s.addBook bid t a i c copies now =
          (true, ({ s with books := s.books ++ [mkBook bid t a i c copies] }).log
            "ADD_BOOK" ("Added book: " ++ t) now) := by
        unfold Library.addBook; simp [hbk]
      rw [hres]; exact h
  | removeBook now bid =>
    simp only [Library.step, Library.applyOp]
    cases hg : s.getBook bid with
    | none =>
      have hres : s.removeBook bid now = (false, s) := by
        unfold Library.removeBook; simp [hg]
      rw [hres]; exact h
    | some book =>
      by_cases hc : book.available_copies < book.total_copies
      · have hres : s.removeBook bid now = (false, s) := by
          unfold Library.removeBook; simp [hg, hc]
        rw [hres]; exact h
      · have hres : s.removeBook bid now =
            (true, ({ s with books := s.books.eraseP (fun b => b.book_id == bid) }).log
              "REMOVE_BOOK" ("Removed book: " ++ book.title) now) := by
          unfold Library.removeBook; simp [hg, hc]
        rw [hres]; exact h
  | addMember now mid n e p mt =>
    simp only [Library.step, Library.applyOp]
    by_cases hmem : s.hasMember mid = true
    · have hres : s.addMember mid n e p mt now = (false, s) := by
        unfold Library.addMember; simp [hmem]
      rw [hres]; exact h
    · have hres : s.addMember mid n e p mt now =
          (true, ({ s with members := s.members ++ [mkMember mid n e p mt now] }).log
            "ADD_MEMBER" ("Added member: " ++ n) now) := by
        unfold Library.addMember; simp [hmem]
      rw [hres]
      intro m hm
      have hm2 : m ∈ s.members ++ [mkMember mid n e p mt now] := hm
      rcases List.mem_append.mp hm2 with h1 | h1
      · exact h m h1
      · rw [List.mem_singleton.mp h1]
        exact memberInv_mkMember mid n e p mt now
  | removeMember now mid =>
    simp only [Library.step, Library.applyOp]
    cases hg : s.getMember mid with
    | none =>
      have hres : s.removeMember mid now = (false, s) := by
        unfold Library.removeMember; simp [hg]
      rw [hres]; exact h
    | some member =>
      by_cases hc : member.borrowed_books = []
      · have hres : s.removeMember mid now =
            (true, ({ s with members := s.members.eraseP (fun m => m.member_id == mid) }).log
              "REMOVE_MEMBER" ("Removed member: " ++ member.name) now) := by
          unfold Library.removeMember; simp [hg, hc]
        rw [hres]
        intro m hm
        exact h m ((List.eraseP_sublist s.members).subset hm)
      · have hres : s.removeMember mid now = (false, s) := by
          unfold Library.removeMember; simp [hg, hc]
        rw [hres]; exact h
  | borrowBook now mid bid =>
    simp only [Library.step, Library.applyOp]
    cases hm : s.getMember mid with
    | none =>
      have hres : s.borrowBook mid bid now = (false, s) := by
        unfold Library.borrowBook; simp [hm]
      rw [hres]; exact h
    | some member =>
      cases hb : s.getBook bid with
      | none =>
        have hres : s.borrowBook mid bid now = (false, s) := by
          unfold Library.borrowBook; simp [hm, hb]
        rw [hres]; exact h
      | some book =>
        by_cases h1 : member.canBorrow = true
        case neg =>
          have hres : s.borrowBook mid bid now = (false, s) := by
            unfold Library.borrowBook; simp [hm, hb, h1]
          rw [hres]; exact h
        by_cases h2 : book.availableQ = true
        case neg =>
          have hres : s.borrowBook mid bid now = (false, s) := by
            unfold Library.borrowBook; simp [hm, hb, h1, h2]
          rw [hres]; exact h
        have hmm : member ∈ s.members := List.mem_of_find?_eq_some hm
        have hlt : member.borrowed_books.length < member.max_books := of_decide_eq_true h1
        have hres : s.borrowBook mid bid now =
            (true, ((s.setBook bid
                { book with available_copies := book.available_copies - 1,
                            borrowed_by := setKey mid now book.borrowed_by }).setMember mid
                { member with borrowed_books := member.borrowed_books ++ [bid] }).log
              "BORROW" ("Member " ++ member.name ++ " borrowed " ++ book.title) now) := by
          unfold Library.borrowBook
          simp [hm, hb, h1, h2, Book.borrow, Member.takeBook]
        rw [hres]
        intro y hy
        rcases mem_replaceF hy with rfl | hmem
        · refine ⟨(h member hmm).1, ?_⟩
          show (member.borrowed_books ++ [bid]).length ≤ member.max_books
          rw [List.length_append]
          have h3 : ([bid] : List String).length = 1 := rfl
          omega
        · exact h y hmem
  | returnBook now mid bid =>
    simp only [Library.step, Library.applyOp]
    cases hm : s.getMember mid with
    | none =>
      have hres : s.returnBook mid bid now = (false, s) := by
        unfold Library.returnBook; simp [hm]
      rw [hres]; exact h
    | some member =>
      cases hb : s.getBook bid with
      | none =>
        have hres : s.returnBook mid bid now = (false, s) := by
          unfold Library.returnBook; simp [hm, hb]
        rw [hres]; exact h
      | some book =>
        by_cases h1 : bid ∈ member.borrowed_books
        case neg =>
          have hres : s.returnBook mid bid now = (false, s) := by
            unfold Library.returnBook; simp [hm, hb, h1]
          rw [hres]; exact h
        have hmm : member ∈ s.members := List.mem_of_find?_eq_some hm
        cases hk : hasKey mid book.borrowed_by
        · have hres : s.returnBook mid bid now = (false, s.setBook bid book) := by
            unfold Library.returnBook; simp [hm, hb, h1, Book.giveBack, hk]
          rw [hres]
          intro y hy
          exact h y hy
        · have hres : s.returnBook mid bid now =
              (true, ((s.setBook bid
                  { book with available_copies := book.available_copies + 1,
                              borrowed_by := delKey mid book.borrowed_by }).setMember mid
                  { member with
                      borrowed_books := member.borrowed_books.erase bid,
                      borrowing_history := member.borrowing_history ++ [(bid, now, now)] }).log
                "RETURN" ("Member " ++ member.name ++ " returned " ++ book.title) now) := by
            unfold Library.returnBook
            simp [hm, hb, h1, Book.giveBack, hk, Member.giveBack]
          rw [hres]
          intro y hy
          rcases mem_replaceF hy with rfl | hmem
          · refine ⟨(h member hmm).1, ?_⟩
            show (member.borrowed_books.erase bid).length ≤ member.max_books
            exact le_trans (List.length_erase_le _ _) (h member hmm).2
          · exact h y hmem

theorem libInv_runOps (ops : List Op) : LibInv (runOps ops) := by
  have hstart : LibInv emptyLibrary := by
    intro m hm
    simp [emptyLibrary] at hm
  suffices hgen : ∀ (l : List Op) (s : Library), LibInv s → LibInv (l.foldl Library.step s) by
    exact hgen ops emptyLibrary hstart
  intro l
  induction l with
  | nil => intro s hs; exact hs
  | cons op rest ih =>
    intro s hs
    exact ih _ (libInv_step s op hs)

/-- C8: in every reachable state each member satisfies the borrowing limit
(len(borrowed_books) ≤ max_books, and max_books is 5 exactly for Premium
membership, 3 otherwise); moreover a non-Premium member already holding 3
books gets false from borrowBook with the whole state unchanged. -/
theorem C8_member_limits (s : Library) (h : ReachableLib s) :
    (∀ m ∈ s.members,
      m.max_books = (if m.membership_type == "Premium" then 5 else 3) ∧
      m.borrowed_books.length ≤ m.max_books) ∧
    (∀ (member_id book_id : String) (now : Int) (m : Member),
      s.getMember member_id = some m → m.membership_type ≠ "Premium" →
      m.borrowed_books.length = 3 →
      s.borrowBook member_id book_id now = (false, s)) := by
  obtain ⟨ops, rfl⟩ := h
  have hinv : LibInv (runOps ops) := libInv_runOps ops
  refine ⟨hinv, ?_⟩
  intro mid bid now m hm hreg hlen
  have hmem : m ∈ (runOps ops).members := List.mem_of_find?_eq_some hm
  have hmax : m.max_books = 3 := by
    rw [(hinv m hmem).1]
    have : (m.membership_type == "Premium") = false := by
      simpa using hreg
    rw [this]
    rfl
  have hcb : m.canBorrow = false := by
    unfold Member.canBorrow
    rw [hlen, hmax]
    rfl
  unfold Library.borrowBook
  rw [hm]
  cases hb : (runOps ops).getBook bid
  · rfl
  · simp [hcb]

/-- C8 witness: the theorem applied to the reachable state in which Regular
member M1 already holds three books. -/
theorem C8_witness :
    ReachableLib (runOps regularFullOps) ∧
    ((∀ m ∈ (runOps regularFullOps).members,
       m.max_books = (if m.membership_type == "Premium" then 5 else 3) ∧
       m.borrowed_books.length ≤ m.max_books) ∧
     (∀ (member_id book_id : String) (now : Int) (m : Member),
       (runOps regularFullOps).getMember member_id = some m →
       m.membership_type ≠ "Premium" → m.borrowed_books.length = 3 →
       (runOps regularFullOps).borrowBook member_id book_id now
         = (false, runOps regularFullOps))) :=
  ⟨⟨regularFullOps, rfl⟩, C8_member_limits (runOps regularFullOps) ⟨regularFullOps, rfl⟩⟩

theorem checkOutList_filter_le (vid : String) (t : Int) (q : String) :
    ∀ {l l2 : List AttendanceRecord}, checkOutList vid t l = some l2 →
      (l2.filter (fun r => r.visitor_id == q && r.is_active)).length ≤
        (l.filter (fun r => r.visitor_id == q && r.is_active)).length := by
  intro l
  induction l with
  | nil => intro l2 h; simp [checkOutList] at h
  | cons r rest ih =>
    intro l2 h
    unfold checkOutList at h
    cases hrec : checkOutList vid t rest with
    | some rest1 =>
      rw [hrec] at h
      have hl2 : r :: rest1 = l2 := Option.some.inj h
      subst hl2
      cases hq : (r.visitor_id == q && r.is_active)
      · simp only [List.filter_cons, hq]
        exact ih hrec
      · simp only [List.filter_cons, hq, List.length_cons]
        exact Nat.succ_le_succ (ih hrec)
    | none =>
      rw [hrec] at h
      by_cases hcond : (r.visitor_id == vid && r.is_active) = true
      · rw [if_pos hcond] at h
        have hl2 : _ = l2 := Option.some.inj h
        subst hl2
        cases hq : (r.visitor_id == q && r.is_active) <;> simp [List.filter_cons, hq]
      · rw [if_neg hcond] at h
        exact absurd h (by simp)

theorem countActive_append_le (recs : List AttendanceRecord) (vid : String)
    (h0 : ∀ q, (recs.filter (fun r2 => r2.visitor_id == q && r2.is_active)).length ≤ 1)
    (hp : recs.any (fun r2 => r2.visitor_id == vid && r2.is_active) = false)
    (r : AttendanceRecord) (hrid : r.visitor_id = vid) (q : String) :
    ((recs ++ [r]).filter (fun r2 => r2.visitor_id == q && r2.is_active)).length ≤ 1 := by
  rw [List.filter_append, List.length_append]
  cases hq : (r.visitor_id == q && r.is_active)
  · have hz : (List.filter (fun r2 => r2.visitor_id == q && r2.is_active) [r]).length = 0 := by
      simp [List.filter_cons, hq]
    rw [hz]
    have := h0 q
    omega
  · have hq1 : (r.visitor_id == q) = true := (Bool.and_eq_true_iff.mp hq).1
    have hq2 : vid = q := by rw [← hrid]; exact eq_of_beq hq1
    subst hq2
    have hzero : (List.filter (fun r2 => r2.visitor_id == vid && r2.is_active) recs).length
        = 0 := by
      rw [List.any_eq_false] at hp
      have hnil : List.filter (fun r2 => r2.visitor_id == vid && r2.is_active) recs = [] := by
        rw [List.filter_eq_nil_iff]
        intro a ha
        exact hp a ha
      rw [hnil]
      rfl
    rw [hzero]
    have hone : (List.filter (fun r2 => r2.visitor_id == vid && r2.is_active) [r]).length
        ≤ 1 := by
      simp [List.filter_cons, hq]
    omega

theorem trackerInv_step (s : AttendanceTracker) (op : TOp) (h : TrackerInv s) :
    TrackerInv (s.stepT op) := by
  cases op with
  | checkIn now vid n vt p =>
    simp only [AttendanceTracker.stepT]
    by_cases hp : s.presentQ vid = true
    · have hres : (s.checkIn vid n vt p now).2 = s := by
        unfold AttendanceTracker.checkIn
        rw [if_pos hp]
      rw [hres]; exact h
    · have hp2 : s.presentQ vid = false := by
        revert hp; cases s.presentQ vid <;> simp
      have hrec : ((s.checkIn vid n vt p now).2).attendance_records =
          s.attendance_records ++
            [{ visitor_id := vid, name := n, visitor_type := vt, entry_time := now,
               exit_time := none, purpose := p, is_active := true }] := by
        unfold AttendanceTracker.checkIn
        rw [if_neg hp]
        cases vt <;> rfl
      intro q
      unfold countActive
      rw [hrec]
      exact countActive_append_le s.attendance_records vid (fun q2 => h q2) hp2 _ rfl q
  | checkOut now vid =>
    simp only [AttendanceTracker.stepT]
    unfold AttendanceTracker.checkOut
    cases hc : checkOutList vid now s.attendance_records with
    | none => exact h
    | some l2 =>
      intro q
      have hle := checkOutList_filter_le vid now q hc
      have h2 := h q
      unfold countActive at h2 ⊢
      exact le_trans hle h2

theorem trackerInv_runTOps (ops : List TOp) : TrackerInv (runTOps ops) := by
  have hstart : TrackerInv emptyTracker := by
    intro q
    simp [countActive, emptyTracker]
  suffices hgen : ∀ (l : List TOp) (s : AttendanceTracker), TrackerInv s →
      TrackerInv (l.foldl AttendanceTracker.stepT s) by
    exact hgen ops emptyTracker hstart
  intro l
  induction l with
  | nil => intro s hs; exact hs
  | cons op rest ih =>
    intro s hs
    exact ih _ (trackerInv_step s op hs)

/-- C5: in every reachable tracker state, at most one attendance record per
visitor_id is active; and when a visitor is currently present, a second
check-in returns false with the tracker unchanged (no record created), and
the current-visitor list still holds exactly one active record for that
visitor_id. -/
theorem C5_single_active (s : AttendanceTracker) (h : ReachableTracker s) :
    (∀ vid, countActive s vid ≤ 1) ∧
    (∀ (vid n : String) (vt : VisitorType) (p : String) (now : Int),
      s.presentQ vid = true →
      s.checkIn vid n vt p now = (Except.ok false, s) ∧
      ((s.currentVisitors.filter (fun r => r.visitor_id == vid)).length = 1)) := by
  obtain ⟨ops, rfl⟩ := h
  have hinv := trackerInv_runTOps ops
  refine ⟨hinv, ?_⟩
  intro vid n vt p now hp
  constructor
  · unfold AttendanceTracker.checkIn
    rw [if_pos hp]
  · have hcomm : (runTOps ops).currentVisitors.filter (fun r => r.visitor_id == vid)
        = (runTOps ops).attendance_records.filter
            (fun r => r.visitor_id == vid && r.is_active) := by
      unfold AttendanceTracker.currentVisitors
      rw [List.filter_filter]
    rw [hcomm]
    have hle := hinv vid
    unfold countActive at hle
    unfold AttendanceTracker.presentQ at hp
    rw [List.any_eq_true] at hp
    obtain ⟨a, ha, hpa⟩ := hp
    have hmem : a ∈ (runTOps ops).attendance_records.filter
        (fun r => r.visitor_id == vid && r.is_active) := List.mem_filter.mpr ⟨ha, hpa⟩
    have hpos : 0 < ((runTOps ops).attendance_records.filter
        (fun r => r.visitor_id == vid && r.is_active)).length :=
      List.length_pos.mpr (List.ne_nil_of_mem hmem)
    omega

/-- C5 witness: the theorem applied to the reachable tracker state in which
visitor V1 is checked in once. -/
theorem C5_witness :
    ReachableTracker (runTOps v1Ops) ∧
    ((∀ vid, countActive (runTOps v1Ops) vid ≤ 1) ∧
     (∀ (vid n : String) (vt : VisitorType) (p : String) (now : Int),
       (runTOps v1Ops).presentQ vid = true →
       (runTOps v1Ops).checkIn vid n vt p now = (Except.ok false, runTOps v1Ops) ∧
       (((runTOps v1Ops).currentVisitors.filter
           (fun r => r.visitor_id == vid)).length = 1))) :=
  ⟨⟨v1Ops, rfl⟩, C5_single_active (runTOps v1Ops) ⟨v1Ops, rfl⟩⟩

/-- C3 witness: removing an absent book from the empty library reports
false and leaves the state untouched. -/
theorem C3_witness :
    (emptyLibrary.applyOp (Op.removeBook 0 "B1")).1 = false ∧
    (emptyLibrary.applyOp (Op.removeBook 0 "B1")).2 = emptyLibrary :=
  ⟨by decide, C3_rejected_no_mutation emptyLibrary (Op.removeBook 0 "B1") (by decide)⟩

/-- C10 witness: searching the one-book catalog by the unknown field
"publisher" returns the empty list. -/
theorem C10_witness :
    (("publisher" : String) ≠ "title" ∧ ("publisher" : String) ≠ "author" ∧
     ("publisher" : String) ≠ "category" ∧ ("publisher" : String) ≠ "isbn") ∧
    isbnLib.searchBooks "x" "publisher" = [] :=
  ⟨by decide,
   C10_unknown_field_empty isbnLib "x" "publisher"
     (by decide) (by decide) (by decide) (by decide)⟩

end LibSys
